import Mathlib

/-!
Verification development for the GitHub platform adapter of a dependency-update
bot.  The definitions below are shallow embeddings of the adapter's functions
(`getBranchStatus`, `getPrList`, `findPr`, `getBranchPr`, `getPr`, `initRepo`,
`mergePr`, `ensureIssue`, `ensureComment`): remote HTTP state is passed
explicitly, JavaScript truthiness is modelled where the source relies on it,
and fallible remote calls are driven by explicit failure flags so that every
definition stays executable.
-/

namespace Renovate

/-- Truthiness of an optional string, as JavaScript sees it: `undefined` and
the empty string are falsy, every other string is truthy. -/
def jsTruthy : Option String → Bool
  | none => false
  | some s => s ≠ ""

/-- Character-level prefix test; the runtime's `startsWith`, restated through
structural list recursion so that the kernel can evaluate it. -/
def strStartsWith (s pre : String) : Bool :=
  pre.data.isPrefixOf s.data

/-- Character-level suffix test; the runtime's `endsWith`, restated through
structural list recursion so that the kernel can evaluate it. -/
def strEndsWith (s suf : String) : Bool :=
  suf.data.isSuffixOf s.data

/-- Drop the first `n` characters of a string. -/
def strDrop (s : String) (n : Nat) : String :=
  ⟨s.data.drop n⟩

/-- Drop the last `n` characters of a string. -/
def strDropRight (s : String) (n : Nat) : String :=
  ⟨s.data.take (s.data.length - n)⟩

/-! ### Branch status aggregation (`getBranchStatus`) -/

/-- One modern check-run as kept by `getBranchStatus` after the check-runs
fetch: name, status and conclusion. -/
structure CheckRun where
  name : String
  status : String
  conclusion : String
deriving DecidableEq, Repr

/-- One legacy commit status inside the combined status response. -/
structure GhStatus where
  context : String
  state : String
deriving DecidableEq, Repr

/-- Body of the combined legacy status endpoint: an overall state plus the
list of individual legacy statuses. -/
structure CombinedBranchStatus where
  state : String
  statuses : List GhStatus
deriving DecidableEq, Repr

/-- The bot's three-valued branch status. -/
inductive BranchStatus where
  | green
  | yellow
  | red
deriving DecidableEq, Repr

/-- Aggregation performed by `getBranchStatus` once the combined legacy status
and the check-runs list have been fetched (the fetches themselves are passed in
as arguments here).  Mirrors the tail of the source function: with no
check-runs the legacy state alone decides; otherwise red on any failure, green
when (legacy success or no legacy statuses) and every check-run concluded in
{skipped, neutral, success}, yellow otherwise. -/
def getBranchStatus (commitStatus : CombinedBranchStatus)
    (checkRuns : List CheckRun) : BranchStatus :=
  if checkRuns.length = 0 then
    if commitStatus.state = "success" then .green
    else if commitStatus.state = "failure" then .red
    else .yellow
  else if commitStatus.state = "failure"
      ∨ checkRuns.any (fun run => run.conclusion == "failure") then
    .red
  else if (commitStatus.state = "success" ∨ commitStatus.statuses.length = 0)
      ∧ checkRuns.all
        (fun run => ["skipped", "neutral", "success"].contains run.conclusion) then
    .green
  else
    .yellow

/-! ### Pull request model (`getPrList`, `findPr`, `getPr`, `getBranchPr`)

The remote repository's pull requests are modelled as one store of REST-shaped
records; the graphql open/closed views are derived from the same store.  Time
stamps are carried as epoch milliseconds (the source parses ISO strings with
luxon and only ever uses the derived millisecond difference to now).  The two
fallible remote mutations of `getBranchPr` (branch-ref recreation and the
reopen PATCH) are driven by failure flags in the session. -/

/-- A REST pull request as returned by the paginated listing, with the nested
`head` object flattened (`head.ref`, `head.sha`, `head.repo.full_name`) and
`closed_at` already converted to epoch milliseconds. -/
structure GhRestPr where
  number : Nat
  headRef : String
  headSha : String
  headRepo : Option String
  title : String
  state : String
  mergedAt : Option String
  createdAt : String
  closedAt : Option Int
  userLogin : Option String
deriving DecidableEq, Repr

/-- Normalized record produced by `getPrList` for each kept REST pull
request. -/
structure Pr where
  number : Nat
  sourceBranch : String
  sha : String
  title : String
  state : String
  createdAt : String
  closedAt : Option Int
  sourceRepo : Option String
deriving DecidableEq, Repr

/-- Record produced by the graphql open/closed PR normalization and by the
direct REST fetch inside `getPr`.  The mergeability, label and reviewer
normalization of the source is not modelled: no claim mentions those fields.
`sourceBranch` is optional because the direct REST fetch only sets it for open
pull requests. -/
structure GraphPr where
  number : Nat
  title : String
  state : String
  sourceBranch : Option String
deriving DecidableEq, Repr

/-- Per-repository session state for the pull-request operations, together
with the remote store they act on and the failure environment for the two
fallible mutations of `getBranchPr`. -/
structure PrSession where
  repository : String
  forkMode : Bool
  ignorePrAuthor : Bool
  renovateUsername : Option String
  now : Int
  remotePrs : List GhRestPr
  prList : Option (List Pr)
  openPrList : Option (List GraphPr)
  closedPrList : Option (List GraphPr)
  branchPrs : List (String × GraphPr)
  restRequests : Nat
  graphqlRequests : Nat
  refCreateFails : Bool
  reopenPatchFails : Bool
deriving DecidableEq, Repr

/-- Author filter of `getPrList`: keep every PR in fork mode or under the
ignore-PR-author override; otherwise keep a PR when its author login equals
the bot username, or when either the login or the configured username is
missing/empty (the source's conditional filter evaluates to `true` then). -/
def prKeep (s : PrSession) (pr : GhRestPr) : Bool :=
  s.forkMode || s.ignorePrAuthor ||
    (if jsTruthy pr.userLogin && jsTruthy s.renovateUsername then
      pr.userLogin == s.renovateUsername
    else true)

/-- Normalization applied by `getPrList` to each kept REST pull request:
closed PRs with a non-empty merge timestamp become "merged". -/
def restToPr (pr : GhRestPr) : Pr :=
  { number := pr.number
    sourceBranch := pr.headRef
    sha := pr.headSha
    title := pr.title
    state := if pr.state = "closed" && jsTruthy pr.mergedAt then "merged" else pr.state
    createdAt := pr.createdAt
    closedAt := pr.closedAt
    sourceRepo := pr.headRepo }

/-- Embedding of `getPrList`: on first call fetch all pull requests of every
state, filter by author, normalize; afterwards serve the session cache. -/
def getPrList (s : PrSession) : List Pr × PrSession :=
  match s.prList with
  | some l => (l, s)
  | none =>
    let l := (s.remotePrs.filter (prKeep s)).map restToPr
    (l, { s with prList := some l, restRequests := s.restRequests + 1 })

/-- Embedding of `matchesState`: wildcard, negation marker, or exact match. -/
def matchesState (state desiredState : String) : Bool :=
  if desiredState = "all" then true
  else if strStartsWith desiredState "!" then state != strDrop desiredState 1
  else state == desiredState

/-- Search parameters of `findPr`; an absent state means the source's default
`PrState.All` (the wildcard). -/
structure FindPRConfig where
  branchName : String
  prTitle : Option String := none
  state : String := "all"

/-- Embedding of `findPr`: linear scan of the full PR list for a PR with the
exact source branch, the given title when one is truthy, a matching state,
and — outside fork mode — the session repository as source repository. -/
def findPr (cfg : FindPRConfig) (s : PrSession) : Option Pr × PrSession :=
  let r := getPrList s
  let pr := r.1.find? (fun p =>
    p.sourceBranch == cfg.branchName &&
    (!(jsTruthy cfg.prTitle) || p.title == cfg.prTitle.getD "") &&
    matchesState p.state cfg.state &&
    (r.2.forkMode || some r.2.repository == p.sourceRepo))
  (pr, r.2)

/-- Graphql normalization shared by the open and closed PR views: the state is
taken from the store (already lowercase) and the head ref becomes the source
branch. -/
def graphOfRest (r : GhRestPr) : GraphPr :=
  { number := r.number, title := r.title, state := r.state,
    sourceBranch := some r.headRef }

/-- Embedding of `getOpenPrs`: populate the open-PR cache from the graphql
open query on first use. -/
def getOpenPrs (s : PrSession) : List GraphPr × PrSession :=
  match s.openPrList with
  | some l => (l, s)
  | none =>
    let l := (s.remotePrs.filter (fun r => r.state == "open")).map graphOfRest
    (l, { s with openPrList := some l, graphqlRequests := s.graphqlRequests + 1 })

/-- Embedding of `getClosedPrs`: populate the closed-PR cache from the graphql
closed query on first use. -/
def getClosedPrs (s : PrSession) : List GraphPr × PrSession :=
  match s.closedPrList with
  | some l => (l, s)
  | none =>
    let l := (s.remotePrs.filter (fun r => r.state == "closed")).map graphOfRest
    (l, { s with closedPrList := some l, graphqlRequests := s.graphqlRequests + 1 })

/-- Harmonisation of a directly fetched REST pull request inside `getPr`: the
source branch is only filled in for open PRs. -/
def harmonisePr (r : GhRestPr) : GraphPr :=
  { number := r.number
    title := r.title
    state := r.state
    sourceBranch := if r.state = "open" then some r.headRef else none }

/-- Embedding of `getPr`: a falsy PR number returns null immediately;
otherwise the open cache, then the closed cache, then a direct single-PR REST
fetch are consulted. -/
def getPr (prNo : Nat) (s : PrSession) : Option GraphPr × PrSession :=
  if prNo = 0 then (none, s)
  else
    let (openPrs, s1) := getOpenPrs s
    match openPrs.find? (fun p => p.number == prNo) with
    | some pr => (some pr, s1)
    | none =>
      let (closedPrs, s2) := getClosedPrs s1
      match closedPrs.find? (fun p => p.number == prNo) with
      | some pr => (some pr, s2)
      | none =>
        let s3 := { s2 with restRequests := s2.restRequests + 1 }
        match s3.remotePrs.find? (fun r => r.number == prNo) with
        | none => (none, s3)
        | some r => (some (harmonisePr r), s3)

/-- The reopen threshold of `getBranchPr`: 1000 * 60 * 60 * 24 * 7 ms. -/
def REOPEN_THRESHOLD_MILLIS : Int := 1000 * 60 * 60 * 24 * 7

/-- Title rewrite performed before the reopen PATCH: drop a final
" - autoclosed" suffix. -/
def stripAutoclosed (title : String) : String :=
  if strEndsWith title " - autoclosed" then strDropRight title 13 else title

/-- Remote effect of the reopen PATCH: the addressed pull request becomes open
under the stripped title. -/
def reopenPrRemote (number : Nat) (title : String) (l : List GhRestPr) :
    List GhRestPr :=
  l.map (fun r =>
    if r.number = number then { r with state := "open", title := title } else r)

/-- Embedding of `getBranchPr`: serve the per-branch cache; otherwise look for
an open PR; otherwise look for a closed PR and, when its title carries the
" - autoclosed" suffix, it has a close timestamp and it closed no more than
`REOPEN_THRESHOLD_MILLIS` ago, recreate the branch ref, PATCH the PR open
under the stripped title, invalidate the open cache and the closed-cache
entry, and return the refetched record.  Either mutation failing aborts with
null. -/
def getBranchPr (branchName : String) (s : PrSession) :
    Option GraphPr × PrSession :=
  match s.branchPrs.lookup branchName with
  | some pr => (some pr, s)
  | none =>
    let (openPr, s1) := findPr { branchName := branchName, state := "open" } s
    match openPr with
    | some op =>
      let (pr, s2) := getPr op.number s1
      match pr with
      | some p => (some p, { s2 with branchPrs := (branchName, p) :: s2.branchPrs })
      | none => (none, s2)
    | none =>
      let (autoclosedPr, s2) := findPr { branchName := branchName, state := "closed" } s1
      match autoclosedPr with
      | none => (none, s2)
      | some ac =>
        if strEndsWith ac.title " - autoclosed" && ac.closedAt.isSome then
          let closedMillisAgo := s2.now - ac.closedAt.getD 0
          if closedMillisAgo > REOPEN_THRESHOLD_MILLIS then (none, s2)
          else
            let s3 := { s2 with restRequests := s2.restRequests + 1 }
            if s3.refCreateFails then (none, s3)
            else
              let title := stripAutoclosed ac.title
              let s4 := { s3 with restRequests := s3.restRequests + 1 }
              if s4.reopenPatchFails then (none, s4)
              else
                let s5 := { s4 with
                  remotePrs := reopenPrRemote ac.number title s4.remotePrs
                  openPrList := none
                  closedPrList :=
                    s4.closedPrList.map (fun l => l.filter (fun p => p.number ≠ ac.number)) }
                let (pr, s6) := getPr ac.number s5
                match pr with
                | some p =>
                  (some p, { s6 with branchPrs := (branchName, p) :: s6.branchPrs })
                | none => (none, s6)
        else (none, s2)

/-- Session builder used by the concrete scenarios: fresh caches, no fork
mode, no ignore-author override, counters at zero, mutations succeeding. -/
def mkPrSession (repository : String) (username : Option String)
    (remote : List GhRestPr) : PrSession :=
  { repository := repository
    forkMode := false
    ignorePrAuthor := false
    renovateUsername := username
    now := 0
    remotePrs := remote
    prList := none
    openPrList := none
    closedPrList := none
    branchPrs := []
    restRequests := 0
    graphqlRequests := 0
    refCreateFails := false
    reopenPatchFails := false }

/-- Remote pull request used by the C6 counterexample: a PR whose author
login is absent (for example a deleted "ghost" account). -/
def authorlessPr : GhRestPr :=
  { number := 10
    headRef := "feature"
    headSha := "abc"
    headRepo := some "me/repo"
    title := "Some human PR"
    state := "open"
    mergedAt := none
    createdAt := "2021-01-01"
    closedAt := none
    userLogin := none }

/-- Remote pull request used by the C6 witness: authored by the bot, closed
with a non-empty merge timestamp. -/
def mergedBotPr : GhRestPr :=
  { authorlessPr with
    userLogin := some "renovate-bot"
    state := "closed"
    mergedAt := some "2021-02-01" }

/-- Closed, bot-authored pull request whose title carries the autoclose
suffix; `closedAt` is the scenario parameter. -/
def autoclosedRestPr (title : String) (closedAt : Int) : GhRestPr :=
  { number := 1
    headRef := "renovate/dep-1x"
    headSha := "sha1"
    headRepo := some "me/repo"
    title := title
    state := "closed"
    mergedAt := none
    createdAt := "2021-01-01"
    closedAt := some closedAt
    userLogin := some "renovate-bot" }

/-- Session for the `getBranchPr` scenarios: one closed PR on the branch,
parameterized close time, current time and failure flags. -/
def autoclosedSession (title : String) (closedAt now : Int) (f1 f2 : Bool) :
    PrSession :=
  { mkPrSession "me/repo" (some "renovate-bot") [autoclosedRestPr title closedAt] with
    now := now
    refCreateFails := f1
    reopenPatchFails := f2 }

/-- The PR-list record `getPrList` derives for the scenario's autoclosed pull
request. -/
def acPrRecord (c : Int) : Pr :=
  { number := 1
    sourceBranch := "renovate/dep-1x"
    sha := "sha1"
    title := "Update dep - autoclosed"
    state := "closed"
    createdAt := "2021-01-01"
    closedAt := some c
    sourceRepo := some "me/repo" }

/-- Scenario session after the PR list has been fetched once. -/
def acSessionListed (c n : Int) (f1 f2 : Bool) : PrSession :=
  { autoclosedSession "Update dep - autoclosed" c n f1 f2 with
    prList := some [acPrRecord c]
    restRequests := 1 }

/-- Scenario session after the branch-ref recreation POST was issued. -/
def acSessionRef (c n : Int) (f1 f2 : Bool) : PrSession :=
  { acSessionListed c n f1 f2 with restRequests := 2 }

/-- Scenario session after the reopen PATCH was issued. -/
def acSessionPatched (c n : Int) (f1 f2 : Bool) : PrSession :=
  { acSessionListed c n f1 f2 with restRequests := 3 }

/-- The scenario's pull request as stored remotely after a successful reopen:
open again, with the autoclose suffix stripped from the title. -/
def acReopenedRestPr (c : Int) : GhRestPr :=
  { autoclosedRestPr "Update dep - autoclosed" c with
    state := "open"
    title := "Update dep" }

/-- The graphql record `getBranchPr` returns after a successful reopen. -/
def acReopenedGraphPr : GraphPr :=
  { number := 1
    title := "Update dep"
    state := "open"
    sourceBranch := some "renovate/dep-1x" }

/-- Final scenario session after a successful reopen: mutated remote store,
refreshed open-PR cache, recorded per-branch pointer. -/
def acSessionReopened (c n : Int) (f1 f2 : Bool) : PrSession :=
  { acSessionListed c n f1 f2 with
    remotePrs := [acReopenedRestPr c]
    openPrList := some [acReopenedGraphPr]
    closedPrList := none
    branchPrs := [("renovate/dep-1x", acReopenedGraphPr)]
    restRequests := 3
    graphqlRequests := 1 }

/-! ### Merge orchestrator (`mergePr`)

The successive PUT requests to the merge endpoint are driven by a list of
remote outcomes consumed in order; `mergePr` additionally records the
`merge_method` of every attempt it issues, so ordering claims become claims
about that trace. -/

/-- Outcome of one PUT to the merge endpoint: success, or an HTTP error with
the given status code. -/
inductive MergeOutcome where
  | ok
  | err (statusCode : Nat)
deriving DecidableEq, Repr

/-- Environment of one `mergePr` call: the branch-protection review gate, the
merge method detected at session init, and the successive outcomes the remote
returns for the successive merge attempts. -/
structure MergeEnv where
  prReviewsRequired : Bool
  reviews : List String
  mergeMethod : Option String
  responses : List MergeOutcome
deriving DecidableEq, Repr

/-- One PUT to the merge endpoint: consume the next remote outcome. -/
def mergeAttempt (responses : List MergeOutcome) :
    MergeOutcome × List MergeOutcome :=
  (responses.headD (.err 500), responses.tail)

/-- Fallback sequence of `mergePr` (the nested try/catch): rebase, then
squash, then merge; ANY error moves on to the next strategy; `acc` carries the
methods already attempted.  Returns overall success and the attempt trace. -/
def mergePrFallback (responses : List MergeOutcome) (acc : List String) :
    Bool × List String :=
  let r1 := mergeAttempt responses
  match r1.1 with
  | .ok => (true, acc ++ ["rebase"])
  | .err _ =>
    let r2 := mergeAttempt r1.2
    match r2.1 with
    | .ok => (true, acc ++ ["rebase", "squash"])
    | .err _ =>
      let r3 := mergeAttempt r2.2
      match r3.1 with
      | .ok => (true, acc ++ ["rebase", "squash", "merge"])
      | .err _ => (false, acc ++ ["rebase", "squash", "merge"])

/-- Embedding of `mergePr`: the review gate may abort with no attempt; a
detected merge method is attempted first, a 404/405 on it falls through to
the fallback sequence while any other error aborts; with no detected method
the fallback sequence runs directly. -/
def mergePr (env : MergeEnv) : Bool × List String :=
  if env.prReviewsRequired && !(env.reviews.any (fun r => r == "APPROVED")) then
    (false, [])
  else
    match env.mergeMethod with
    | some m =>
      let r := mergeAttempt env.responses
      match r.1 with
      | .ok => (true, [m])
      | .err code =>
        if code = 404 ∨ code = 405 then mergePrFallback r.2 [m]
        else (false, [m])
    | none => mergePrFallback env.responses []

/-! ### Session initialization (`initRepo`)

Only the failure classification of `initRepo` is claim-relevant.  The repo
metadata query result is passed in explicitly; thrown errors are records of a
message and an optional HTTP status code, and the inner validation errors flow
through the same catch block as query failures, as in the source. -/

/-- Error-message constant shared with the error-messages module (which is
outside the sampled sources; the adapter compares these only for equality and
prefix, so the exact strings merely need to stay pairwise distinct). -/
def REPOSITORY_EMPTY : String := "empty"

/-- Error-message constant, see `REPOSITORY_EMPTY`. -/
def REPOSITORY_ARCHIVED : String := "archived"

/-- Error-message constant, see `REPOSITORY_EMPTY`. -/
def REPOSITORY_RENAMED : String := "renamed"

/-- Error-message constant, see `REPOSITORY_EMPTY`. -/
def REPOSITORY_NOT_FOUND : String := "not-found"

/-- Error-message constant, see `REPOSITORY_EMPTY`. -/
def REPOSITORY_ACCESS_FORBIDDEN : String := "forbidden"

/-- Error-message constant, see `REPOSITORY_EMPTY`. -/
def REPOSITORY_BLOCKED : String := "blocked"

/-- Error-message constant, see `REPOSITORY_EMPTY`. -/
def REPOSITORY_FORKED : String := "forked"

/-- Error-message constant, see `REPOSITORY_EMPTY`. -/
def REPOSITORY_DISABLED : String := "disabled"

/-- A thrown platform error: its message and, for HTTP errors, the response
status code. -/
structure GhErr where
  message : String
  statusCode : Option Nat
deriving DecidableEq, Repr

/-- Repository metadata returned by the combined info query. -/
structure GhRepo where
  nameWithOwner : Option String
  defaultBranchRefName : Option String
  isArchived : Bool
  rebaseMergeAllowed : Bool
  squashMergeAllowed : Bool
  mergeCommitAllowed : Bool
  autoMergeAllowed : Bool
  hasIssuesEnabled : Bool
  isFork : Bool
deriving DecidableEq, Repr

/-- Session configuration derived by a successful `initRepo`. -/
structure RepoConfig where
  defaultBranch : String
  mergeMethod : Option String
  autoMergeAllowed : Bool
  hasIssuesEnabled : Bool
  isFork : Bool
deriving DecidableEq, Repr

/-- Merge-method detection: rebase-allowed wins over squash-allowed over
merge-commit-allowed; none satisfied leaves the method undetected. -/
def deriveMergeMethod (repo : GhRepo) : Option String :=
  if repo.rebaseMergeAllowed then some "rebase"
  else if repo.squashMergeAllowed then some "squash"
  else if repo.mergeCommitAllowed then some "merge"
  else none

/-- Validation inside the try block of `initRepo`: missing repository, falsy
default branch, renamed repository, archived repository, in that order;
otherwise the derived session configuration. -/
def initRepoInner (repository : String) (repo : Option GhRepo) :
    Except GhErr RepoConfig :=
  match repo with
  | none => .error ⟨REPOSITORY_NOT_FOUND, none⟩
  | some repo =>
    if jsTruthy repo.defaultBranchRefName = false then
      .error ⟨REPOSITORY_EMPTY, none⟩
    else if jsTruthy repo.nameWithOwner && repo.nameWithOwner != some repository then
      .error ⟨REPOSITORY_RENAMED, none⟩
    else if repo.isArchived then
      .error ⟨REPOSITORY_ARCHIVED, none⟩
    else
      .ok
        { defaultBranch := repo.defaultBranchRefName.getD ""
          mergeMethod := deriveMergeMethod repo
          autoMergeAllowed := repo.autoMergeAllowed
          hasIssuesEnabled := repo.hasIssuesEnabled
          isFork := repo.isFork }

/-- Catch block of `initRepo`: rethrow the three named validation errors,
map 403 to access-forbidden, 404 to not-found, an access-blocked message to
blocked, rethrow forked/disabled, map the HTTP 451 message to
access-forbidden, and propagate everything else unchanged. -/
def initRepoCatch (err : GhErr) : GhErr :=
  if err.message = REPOSITORY_ARCHIVED ∨ err.message = REPOSITORY_RENAMED
      ∨ err.message = REPOSITORY_NOT_FOUND then err
  else if err.statusCode = some 403 then ⟨REPOSITORY_ACCESS_FORBIDDEN, none⟩
  else if err.statusCode = some 404 then ⟨REPOSITORY_NOT_FOUND, none⟩
  else if strStartsWith err.message "Repository access blocked" then
    ⟨REPOSITORY_BLOCKED, none⟩
  else if err.message = REPOSITORY_FORKED then err
  else if err.message = REPOSITORY_DISABLED then err
  else if err.message = "Response code 451 (Unavailable for Legal Reasons)" then
    ⟨REPOSITORY_ACCESS_FORBIDDEN, none⟩
  else err

/-- Embedding of `initRepo`'s discovery phase: run the metadata query result
through the inner validation; every thrown error — from the query or from the
validation itself — passes through the catch block. -/
def initRepo (repository : String) (queryResult : Except GhErr (Option GhRepo)) :
    Except GhErr RepoConfig :=
  match queryResult with
  | .error e => .error (initRepoCatch e)
  | .ok r =>
    match initRepoInner repository r with
    | .ok cfg => .ok cfg
    | .error e => .error (initRepoCatch e)

/-! ### Issue reconciliation (`ensureIssue`)

The remote issue store is explicit; `getIssueList` caches a body-less
projection of it (list views omit bodies), and the body compared by
`ensureIssue` is fetched from the store directly.  The session counts every
remote create/update call (`closeIssue`, the update PATCH, the create POST).
Labels only travel inside write payloads and are never read back, so the
store does not track them. -/

/-- The secret-masking `sanitize` helper lives outside the sampled sources;
it is applied uniformly to every body before writing and comparing, so the
identity keeps every claim's meaning. -/
def sanitize (s : String) : String := s

/-- A remote issue. -/
structure GhIssue where
  number : Nat
  title : String
  state : String
  body : String
deriving DecidableEq, Repr

/-- Issue-list entry as cached by `getIssueList`: list views omit bodies. -/
structure IssueLite where
  number : Nat
  title : String
  state : String
deriving DecidableEq, Repr

/-- Session state for the issue operations: the remote store, the issue-list
cache, the issues-enabled flag, and the number of remote create/update calls
issued so far. -/
structure IssueSession where
  remoteIssues : List GhIssue
  issueList : Option (List IssueLite)
  hasIssuesEnabled : Bool
  writes : Nat
deriving DecidableEq, Repr

/-- Projection of a remote issue into its list view. -/
def issueLite (i : GhIssue) : IssueLite :=
  { number := i.number, title := i.title, state := i.state }

/-- Embedding of `getIssueList`: empty when issues are disabled, otherwise
the cache, populated from the remote store on first use. -/
def getIssueList (s : IssueSession) : List IssueLite × IssueSession :=
  if s.hasIssuesEnabled = false then ([], s)
  else
    match s.issueList with
    | some l => (l, s)
    | none =>
      let l := s.remoteIssues.map issueLite
      (l, { s with issueList := some l })

/-- Embedding of `closeIssue`: PATCH the issue closed. -/
def closeIssue (n : Nat) (s : IssueSession) : IssueSession :=
  { s with
    remoteIssues := s.remoteIssues.map fun i =>
      if i.number = n then { i with state := "closed" } else i
    writes := s.writes + 1 }

/-- Body of an issue as served by the single-issue GET. -/
def getIssueBody (n : Nat) (s : IssueSession) : String :=
  ((s.remoteIssues.find? (fun i => i.number == n)).map GhIssue.body).getD ""

/-- Remote effect of the update PATCH of `ensureIssue`: new body and title,
state open. -/
def patchIssue (n : Nat) (title body : String) (s : IssueSession) : IssueSession :=
  { s with
    remoteIssues := s.remoteIssues.map fun i =>
      if i.number = n then { i with title := title, body := body, state := "open" }
      else i
    writes := s.writes + 1 }

/-- Remote effect of the create POST of `ensureIssue`: a fresh open issue is
appended and the issue-list cache is invalidated. -/
def createIssue (title body : String) (s : IssueSession) : IssueSession :=
  { s with
    remoteIssues := s.remoteIssues ++
      [{ number := (s.remoteIssues.map GhIssue.number).foldr max 0 + 1
         title := title, state := "open", body := body }]
    issueList := none
    writes := s.writes + 1 }

/-- Arguments of `ensureIssue` with the source's defaults. -/
structure EnsureIssueConfig where
  title : String
  reuseTitle : Option String := none
  body : String
  labels : Option (List String) := none
  once : Bool := false
  shouldReOpen : Bool := true

/-- Tail of `ensureIssue` once a candidate issue has been picked: close other
open duplicates, fetch the candidate's body, no-op when title, body and open
state already match, update when reopening is allowed, create otherwise. -/
def ensureIssueWith (cfg : EnsureIssueConfig) (sbody : String)
    (issues : List IssueLite) (issue : IssueLite) (s : IssueSession) :
    Option String × IssueSession :=
  let s := issues.foldl
    (fun acc i =>
      if i.state == "open" && i.number ≠ issue.number then closeIssue i.number acc
      else acc) s
  let issueBody := getIssueBody issue.number s
  if issue.title == cfg.title && issueBody == sbody && issue.state == "open" then
    (none, s)
  else if cfg.shouldReOpen then
    (some "updated", patchIssue issue.number cfg.title sbody s)
  else
    (some "created", createIssue cfg.title sbody s)

/-- Embedding of `ensureIssue`: no-op when issues are disabled; match the
cached issue list by title, then by `reuseTitle`; with no match create; with
matches prefer the open one, else — unless `once` — the last one as reopen
candidate. -/
def ensureIssue (cfg : EnsureIssueConfig) (s0 : IssueSession) :
    Option String × IssueSession :=
  if s0.hasIssuesEnabled = false then (none, s0)
  else
    let sbody := sanitize cfg.body
    let r := getIssueList s0
    let issues0 := r.1.filter (fun i => i.title == cfg.title)
    let issues :=
      if issues0.isEmpty then
        match cfg.reuseTitle with
        | some rt => r.1.filter (fun i => i.title == rt)
        | none => []
      else issues0
    if issues.isEmpty then (some "created", createIssue cfg.title sbody r.2)
    else
      match issues.find? (fun i => i.state == "open") with
      | some issue => ensureIssueWith cfg sbody issues issue r.2
      | none =>
        if cfg.once then (none, r.2)
        else
          match issues.getLast? with
          | some issue => ensureIssueWith cfg sbody issues issue r.2
          | none => (none, r.2)

/-! ### Comment reconciliation (`ensureComment`)

The fetched comment list and the possible failures of the fetch and of the
write are the environment; the returned action records what, if anything, was
written, so the mutual exclusion of the two addressing modes is a statement
about actions. -/

/-- A PR/issue comment. -/
structure Comment where
  id : Nat
  body : String
deriving DecidableEq, Repr

/-- What `ensureComment` did remotely. -/
inductive CommentAction where
  | added (body : String)
  | edited (id : Nat) (body : String)
  | noop
deriving DecidableEq, Repr

/-- Environment of one `ensureComment` call. -/
structure CommentEnv where
  comments : List Comment
  getCommentsFails : Bool
  writeFails : Bool
deriving DecidableEq, Repr

/-- Final step of `ensureComment`: create when nothing matched, update when
the match needs it, otherwise report up-to-date; failed writes report
failure. -/
def ensureCommentApply (found : Option Nat × Bool) (body : String)
    (env : CommentEnv) : Bool × CommentAction :=
  match found.1 with
  | none =>
    if env.writeFails then (false, .noop) else (true, .added body)
  | some cid =>
    if found.2 then
      if env.writeFails then (false, .noop) else (true, .edited cid body)
    else (true, .noop)

/-- Embedding of `ensureComment`: in topic mode the body is the header
template `### {topic}\n\n{content}` and comments are matched by that header
prefix (the last match winning), an update being needed when the full body
differs; in content-only mode comments are matched by exact whole-body
equality and never need updating.  A failing comment fetch reports failure. -/
def ensureComment (topic : Option String) (content : String) (env : CommentEnv) :
    Bool × CommentAction :=
  if env.getCommentsFails then (false, .noop)
  else
    let sanitizedContent := sanitize content
    match topic with
    | some t =>
      let body := "### " ++ t ++ "\n\n" ++ sanitizedContent
      let found := env.comments.foldl
        (fun acc c =>
          if strStartsWith c.body ("### " ++ t ++ "\n\n") then
            (some c.id, c.body != body)
          else acc)
        ((none : Option Nat), false)
      ensureCommentApply found body env
    | none =>
      let body := sanitizedContent
      let found := env.comments.foldl
        (fun acc c => if c.body == body then (some c.id, false) else acc)
        ((none : Option Nat), false)
      ensureCommentApply found body env

end Renovate

namespace Renovate

/-- C3 counterexample: with legacy state "pending", an empty legacy status
list and a single successful check-run, the code returns green, not the yellow
the claim demands for every pending state with all-success check-runs. -/
theorem getBranchStatus_pending_no_statuses_green :
    getBranchStatus ⟨"pending", []⟩ [⟨"build", "completed", "success"⟩]
        = BranchStatus.green
      ∧ BranchStatus.green ≠ BranchStatus.yellow := by
  decide

/-- C3 (amended): with zero check-runs the result is green iff the legacy
state is "success", red iff it is "failure", yellow otherwise; with at least
one check-run the result is red iff the legacy state is "failure" or some run
concluded "failure", green iff it is not red and (legacy success or zero
legacy statuses) and every run concluded in {skipped, neutral, success}, and
yellow in the remaining cases; in particular legacy state "pending" with a
NON-EMPTY legacy status list and all-success check-runs yields yellow. -/
theorem getBranchStatus_spec (cs : CombinedBranchStatus) (runs : List CheckRun) :
    (runs = [] →
      (getBranchStatus cs runs = .green ↔ cs.state = "success")
      ∧ (getBranchStatus cs runs = .red ↔ cs.state = "failure")
      ∧ (getBranchStatus cs runs = .yellow ↔
          (cs.state ≠ "success" ∧ cs.state ≠ "failure")))
    ∧ (runs ≠ [] →
      (getBranchStatus cs runs = .red ↔
        (cs.state = "failure" ∨ ∃ r ∈ runs, r.conclusion = "failure"))
      ∧ (getBranchStatus cs runs = .green ↔
          (¬(cs.state = "failure" ∨ ∃ r ∈ runs, r.conclusion = "failure")
            ∧ (cs.state = "success" ∨ cs.statuses = [])
            ∧ ∀ r ∈ runs, r.conclusion ∈ ["skipped", "neutral", "success"])))
    ∧ (cs.state = "pending" → cs.statuses ≠ [] → runs ≠ [] →
        (∀ r ∈ runs, r.conclusion = "success") →
        getBranchStatus cs runs = .yellow) := by
  refine ⟨?_, ?_, ?_⟩
  · intro h
    subst h
    by_cases h1 : cs.state = "success" <;> by_cases h2 : cs.state = "failure" <;>
      simp_all [getBranchStatus]
  · intro h
    have hlen : ¬ runs.length = 0 := by simpa [List.length_eq_zero] using h
    constructor
    · simp only [getBranchStatus, if_neg hlen]
      split <;> rename_i h1
      · simp only [true_iff]
        simpa [List.any_eq_true, beq_iff_eq] using h1
      · constructor
        · intro hcontra
          split at hcontra <;> simp_all
        · intro hcontra
          exact absurd (by simpa [List.any_eq_true, beq_iff_eq] using hcontra) h1
    · simp only [getBranchStatus, if_neg hlen]
      split <;> rename_i h1
      · constructor
        · intro hcontra; simp at hcontra
        · intro hcontra
          exact absurd (by simpa [List.any_eq_true, beq_iff_eq] using h1) hcontra.1
      · have h1p : ¬(cs.state = "failure" ∨ ∃ r ∈ runs, r.conclusion = "failure") := by
          intro hc
          exact h1 (by simpa [List.any_eq_true, beq_iff_eq] using hc)
        split <;> rename_i h2
        · simp only [true_iff]
          refine ⟨h1p, ?_, ?_⟩
          · rcases h2.1 with hs | hs
            · exact Or.inl hs
            · exact Or.inr (by simpa [List.length_eq_zero] using hs)
          · intro r hr
            have := h2.2
            simp only [List.all_eq_true] at this
            have hc := this r hr
            simpa [List.contains_iff_exists_mem_beq, beq_iff_eq] using hc
        · constructor
          · intro hcontra; simp at hcontra
          · intro ⟨_, hg1, hg2⟩
            exfalso
            apply h2
            refine ⟨?_, ?_⟩
            · rcases hg1 with hs | hs
              · exact Or.inl hs
              · exact Or.inr (by simp [hs])
            · simp only [List.all_eq_true]
              intro r hr
              have := hg2 r hr
              simpa [List.contains_iff_exists_mem_beq, beq_iff_eq] using this
  · intro hpend hsts hruns hall
    have hlen : ¬ runs.length = 0 := by simpa [List.length_eq_zero] using hruns
    simp only [getBranchStatus, if_neg hlen]
    have hnored : ¬(cs.state = "failure"
        ∨ runs.any (fun run => run.conclusion == "failure") = true) := by
      rintro (hf | hf)
      · rw [hpend] at hf; exact absurd hf (by decide)
      · simp only [List.any_eq_true, beq_iff_eq] at hf
        obtain ⟨r, hr, hrf⟩ := hf
        have := hall r hr
        rw [this] at hrf
        exact absurd hrf (by decide)
    rw [if_neg hnored]
    have hnogreen : ¬((cs.state = "success" ∨ cs.statuses.length = 0)
        ∧ runs.all
          (fun run => ["skipped", "neutral", "success"].contains run.conclusion)
            = true) := by
      rintro ⟨hs | hs, _⟩
      · rw [hpend] at hs; exact absurd hs (by decide)
      · exact hsts (by simpa [List.length_eq_zero] using hs)
    rw [if_neg hnogreen]

/-- Witness for the C3 theorem: instantiating it at legacy state "pending"
with one pending legacy status and one successful check-run yields yellow. -/
theorem getBranchStatus_spec_witness :
    getBranchStatus ⟨"pending", [⟨"ci", "pending"⟩]⟩
        [⟨"build", "completed", "success"⟩] = BranchStatus.yellow :=
  (getBranchStatus_spec ⟨"pending", [⟨"ci", "pending"⟩]⟩
      [⟨"build", "completed", "success"⟩]).2.2 rfl (by decide) (by decide)
    (by decide)

/-- C10: for the falsy PR number 0, `getPr` returns null immediately and the
session is untouched: neither cache is consulted or populated and the REST and
graphql request counters are unchanged. -/
theorem getPr_falsy_number (s : PrSession) : getPr 0 s = (none, s) := rfl

/-- Fields of the session other than the PR-list cache and the request
counter are untouched by `getPrList`. -/
theorem getPrList_preserves (s : PrSession) :
    ((getPrList s).2).forkMode = s.forkMode
    ∧ ((getPrList s).2).repository = s.repository := by
  cases h : s.prList <;> simp [getPrList, h]

/-- C6 counterexample: outside fork mode and without the ignore-author
override, a pull request whose author login is missing is still kept by
`getPrList`, so the list is not restricted to PRs authored by the bot
username. -/
theorem getPrList_keeps_authorless_pr :
    (getPrList (mkPrSession "me/repo" (some "renovate-bot") [authorlessPr])).1
        = [restToPr authorlessPr]
      ∧ (mkPrSession "me/repo" (some "renovate-bot") [authorlessPr]).forkMode = false
      ∧ (mkPrSession "me/repo" (some "renovate-bot") [authorlessPr]).ignorePrAuthor = false
      ∧ authorlessPr.userLogin ≠ some "renovate-bot" := by
  refine ⟨rfl, rfl, rfl, by decide⟩

/-- C6 (amended): every record returned by `getPrList` stems from a remote
pull request that is kept either because fork mode or the ignore-PR-author
override is active, or because its author login equals the bot username, or
because the author login or the configured username is missing; and the
normalization maps a remote "closed" state with a non-empty merge timestamp to
"merged", never to "closed". -/
theorem getPrList_spec (s : PrSession) (hc : s.prList = none) :
    (∀ p ∈ (getPrList s).1, ∃ pr ∈ s.remotePrs, p = restToPr pr
      ∧ (s.forkMode = true ∨ s.ignorePrAuthor = true
          ∨ jsTruthy pr.userLogin = false ∨ jsTruthy s.renovateUsername = false
          ∨ pr.userLogin = s.renovateUsername))
    ∧ (∀ pr : GhRestPr, pr.state = "closed" → jsTruthy pr.mergedAt = true →
        (restToPr pr).state = "merged")
    ∧ (∀ pr : GhRestPr, (restToPr pr).state = "closed" →
        pr.state = "closed" ∧ jsTruthy pr.mergedAt = false) := by
  refine ⟨?_, ?_, ?_⟩
  · intro p hp
    rw [getPrList, hc] at hp
    simp only [List.mem_map, List.mem_filter] at hp
    obtain ⟨pr, ⟨hmem, hkeep⟩, rfl⟩ := hp
    refine ⟨pr, hmem, rfl, ?_⟩
    rw [prKeep] at hkeep
    simp only [Bool.or_eq_true] at hkeep
    rcases hkeep with (hf | hi) | hrest
    · exact Or.inl hf
    · exact Or.inr (Or.inl hi)
    · by_cases hcond : (jsTruthy pr.userLogin && jsTruthy s.renovateUsername) = true
      · rw [if_pos hcond] at hrest
        exact Or.inr (Or.inr (Or.inr (Or.inr (by simpa [beq_iff_eq] using hrest))))
      · simp only [Bool.and_eq_true, not_and_or, Bool.not_eq_true] at hcond
        rcases hcond with hc1 | hc2
        · exact Or.inr (Or.inr (Or.inl hc1))
        · exact Or.inr (Or.inr (Or.inr (Or.inl hc2)))
  · intro pr hst hmerged
    simp [restToPr, hst, hmerged]
  · intro pr hres
    rw [restToPr] at hres
    simp only at hres
    by_cases hcond : (pr.state = "closed" && jsTruthy pr.mergedAt) = true
    · rw [if_pos hcond] at hres
      exact absurd hres (by decide)
    · rw [if_neg hcond] at hres
      simp only [Bool.and_eq_true, not_and_or, Bool.not_eq_true,
        decide_eq_true_eq] at hcond
      rcases hcond with hc1 | hc2
      · exact absurd hres hc1
      · exact ⟨hres, hc2⟩

/-- Witness for the C6 theorem: in a session with an empty PR-list cache and
one bot-authored merged pull request, the single returned record stems from
that PR whose login equals the bot username, and its state is "merged". -/
theorem getPrList_spec_witness :
    (∀ p ∈ (getPrList (mkPrSession "me/repo" (some "renovate-bot")
        [mergedBotPr])).1,
      ∃ pr ∈ [mergedBotPr], p = restToPr pr
        ∧ ((mkPrSession "me/repo" (some "renovate-bot") [mergedBotPr]).forkMode = true
          ∨ (mkPrSession "me/repo" (some "renovate-bot") [mergedBotPr]).ignorePrAuthor = true
          ∨ jsTruthy pr.userLogin = false
          ∨ jsTruthy (mkPrSession "me/repo" (some "renovate-bot")
              [mergedBotPr]).renovateUsername = false
          ∨ pr.userLogin = (mkPrSession "me/repo" (some "renovate-bot")
              [mergedBotPr]).renovateUsername))
      ∧ (restToPr mergedBotPr).state = "merged" :=
  ⟨(getPrList_spec (mkPrSession "me/repo" (some "renovate-bot") [mergedBotPr]) rfl).1,
   (getPrList_spec (mkPrSession "me/repo" (some "renovate-bot") [mergedBotPr]) rfl).2.1
     mergedBotPr rfl rfl⟩

/-- C7 counterexample: with a supplied but empty title the title filter is
skipped (JavaScript truthiness), so `findPr` returns a pull request whose
title is not the supplied one. -/
theorem findPr_empty_title_counterexample :
    (findPr { branchName := "feature", prTitle := some "", state := "all" }
        (mkPrSession "me/repo" (some "renovate-bot") [authorlessPr])).1
        = some (restToPr authorlessPr)
      ∧ (restToPr authorlessPr).title ≠ "" := by
  refine ⟨rfl, by decide⟩

/-- C7 (amended): a pull request returned by `findPr` has exactly the
requested source branch; its title equals the supplied title whenever a
non-empty one is supplied; its state satisfies the state filter, so with
filter "!closed" its state is anything but exactly "closed"; and outside fork
mode its source repository is the session repository. -/
theorem findPr_spec (cfg : FindPRConfig) (s : PrSession) (p : Pr)
    (h : (findPr cfg s).1 = some p) :
    p.sourceBranch = cfg.branchName
    ∧ (∀ t, cfg.prTitle = some t → t ≠ "" → p.title = t)
    ∧ matchesState p.state cfg.state = true
    ∧ (cfg.state = "!closed" → p.state ≠ "closed")
    ∧ (s.forkMode = false → p.sourceRepo = some s.repository) := by
  rw [findPr] at h
  simp only at h
  have hpred := List.find?_some h
  simp only [Bool.and_eq_true] at hpred
  obtain ⟨⟨⟨h1, h2⟩, h3⟩, h4⟩ := hpred
  refine ⟨by simpa [beq_iff_eq] using h1, ?_, h3, ?_, ?_⟩
  · intro t ht hne
    have hj : jsTruthy (some t) = true := by
      simp [jsTruthy, hne]
    rw [ht, hj] at h2
    simpa [beq_iff_eq] using h2
  · intro hbang
    rw [hbang] at h3
    rw [matchesState, if_neg (by decide), if_pos (by decide)] at h3
    have hdrop : strDrop "!closed" 1 = "closed" := by decide
    rw [hdrop] at h3
    simpa [bne_iff_ne] using h3
  · intro hfork
    have hpf := getPrList_preserves s
    rw [hpf.1, hfork] at h4
    simp only [Bool.false_or, beq_iff_eq] at h4
    rw [hpf.2] at h4
    exact h4.symm

/-- Witness for the C7 theorem: instantiating it on a session holding one
merged pull request with the state filter "!closed" shows a merged (non-open,
non-closed) PR being returned with all the guarantees, in particular a state
other than "closed". -/
theorem findPr_spec_witness :
    (restToPr mergedBotPr).sourceBranch = "feature"
    ∧ (∀ t, (some "Some human PR" : Option String) = some t → t ≠ "" →
        (restToPr mergedBotPr).title = t)
    ∧ matchesState (restToPr mergedBotPr).state "!closed" = true
    ∧ ("!closed" = "!closed" → (restToPr mergedBotPr).state ≠ "closed")
    ∧ ((mkPrSession "me/repo" (some "renovate-bot") [mergedBotPr]).forkMode = false →
        (restToPr mergedBotPr).sourceRepo
          = some (mkPrSession "me/repo" (some "renovate-bot") [mergedBotPr]).repository) :=
  findPr_spec
    { branchName := "feature", prTitle := some "Some human PR", state := "!closed" }
    (mkPrSession "me/repo" (some "renovate-bot") [mergedBotPr])
    (restToPr mergedBotPr) rfl

/-- Unfolding of `getBranchPr` on the autoclosed scenario: everything reduces
except the threshold comparison and the two failure flags. -/
theorem getBranchPr_autoclosed_unfold (c n : Int) (f1 f2 : Bool) :
    getBranchPr "renovate/dep-1x"
        (autoclosedSession "Update dep - autoclosed" c n f1 f2)
      = (if n - c > REOPEN_THRESHOLD_MILLIS then (none, acSessionListed c n f1 f2)
         else if f1 = true then (none, acSessionRef c n f1 f2)
         else if f2 = true then (none, acSessionPatched c n f1 f2)
         else (some acReopenedGraphPr, acSessionReopened c n f1 f2)) := rfl

/-- C2 counterexample: a matching autoclosed PR closed exactly 604,800,000 ms
ago — hence NOT "less than 7 days" — is still reopened and returned by
`getBranchPr`, because the source only gives up when the age strictly exceeds
the threshold. -/
theorem getBranchPr_boundary_reopen :
    (getBranchPr "renovate/dep-1x"
        (autoclosedSession "Update dep - autoclosed" 0 604800000 false false)).1
        = some acReopenedGraphPr
      ∧ acReopenedGraphPr.title = "Update dep"
      ∧ ¬ ((604800000 : Int) - 0 < 604800000) := by
  refine ⟨?_, rfl, by decide⟩
  rw [getBranchPr_autoclosed_unfold, if_neg (by decide), if_neg (by decide),
    if_neg (by decide)]

/-- C2 (amended): on a branch with no open PR and one closed autoclosed PR,
`getBranchPr` reopens the PR only when it closed at most 7 days
(604,800,000 ms) ago: closed longer ago it returns nothing and the remote PR
stays closed; within the threshold and with both mutations succeeding it
returns the record with the " - autoclosed" suffix stripped from the title;
a failing branch-ref recreation or reopen PATCH makes it return nothing (the
remote PR staying closed) rather than raise; and a closed PR without the
suffix is never reopened. -/
theorem getBranchPr_autoclosed_spec (c n : Int) (f1 f2 : Bool) :
    (n - c > 604800000 →
      (getBranchPr "renovate/dep-1x"
          (autoclosedSession "Update dep - autoclosed" c n f1 f2)).1 = none
      ∧ ((getBranchPr "renovate/dep-1x"
          (autoclosedSession "Update dep - autoclosed" c n f1 f2)).2).remotePrs
          = [autoclosedRestPr "Update dep - autoclosed" c])
    ∧ (n - c ≤ 604800000 → f1 = false → f2 = false →
      (getBranchPr "renovate/dep-1x"
          (autoclosedSession "Update dep - autoclosed" c n f1 f2)).1
        = some acReopenedGraphPr
      ∧ acReopenedGraphPr.title = stripAutoclosed "Update dep - autoclosed")
    ∧ (n - c ≤ 604800000 → (f1 = true ∨ f2 = true) →
      (getBranchPr "renovate/dep-1x"
          (autoclosedSession "Update dep - autoclosed" c n f1 f2)).1 = none
      ∧ ((getBranchPr "renovate/dep-1x"
          (autoclosedSession "Update dep - autoclosed" c n f1 f2)).2).remotePrs
          = [autoclosedRestPr "Update dep - autoclosed" c])
    ∧ (getBranchPr "renovate/dep-1x"
        (autoclosedSession "Update dep" c n f1 f2)).1 = none := by
  have hu := getBranchPr_autoclosed_unfold c n f1 f2
  have ht : REOPEN_THRESHOLD_MILLIS = 604800000 := by decide
  refine ⟨?_, ?_, ?_, ?_⟩
  · intro h
    rw [hu, if_pos (by rw [ht]; exact h)]
    exact ⟨rfl, rfl⟩
  · intro h hf1 hf2
    subst hf1; subst hf2
    rw [hu, if_neg (by rw [ht]; exact not_lt.mpr h), if_neg (by decide),
      if_neg (by decide)]
    exact ⟨rfl, by decide⟩
  · intro h hf
    rw [hu, if_neg (by rw [ht]; exact not_lt.mpr h)]
    rcases hf with hf | hf
    · rw [if_pos hf]
      exact ⟨rfl, rfl⟩
    · by_cases hf1 : f1 = true
      · rw [if_pos hf1]
        exact ⟨rfl, rfl⟩
      · rw [if_neg hf1, if_pos hf]
        exact ⟨rfl, rfl⟩
  · rfl

/-- Witness for the C2 theorem: a PR closed 8 days ago (691,200,000 ms) is
not reopened and the remote PR stays closed, while one closed 1 day ago
(86,400,000 ms) is reopened with the suffix stripped from its title. -/
theorem getBranchPr_autoclosed_spec_witness :
    ((getBranchPr "renovate/dep-1x"
        (autoclosedSession "Update dep - autoclosed" 0 691200000 false false)).1 = none
      ∧ ((getBranchPr "renovate/dep-1x"
          (autoclosedSession "Update dep - autoclosed" 0 691200000 false false)).2).remotePrs
          = [autoclosedRestPr "Update dep - autoclosed" 0])
    ∧ ((getBranchPr "renovate/dep-1x"
        (autoclosedSession "Update dep - autoclosed" 0 86400000 false false)).1
        = some acReopenedGraphPr
      ∧ acReopenedGraphPr.title = stripAutoclosed "Update dep - autoclosed") :=
  ⟨(getBranchPr_autoclosed_spec 0 691200000 false false).1 (by decide),
   (getBranchPr_autoclosed_spec 0 86400000 false false).2.1 (by decide) rfl rfl⟩

/-- C1 counterexample: with detected merge method "rebase" and a 405 on the
detected attempt, the very next attempt `mergePr` issues uses method "rebase"
again (the fallback sequence starts over at rebase), not "squash". -/
theorem mergePr_405_next_attempt_rebase :
    mergePr ⟨false, [], some "rebase", [.err 405, .ok]⟩ = (true, ["rebase", "rebase"])
      ∧ (["rebase", "rebase"] : List String)[1]? = some "rebase"
      ∧ "rebase" ≠ "squash" := by
  refine ⟨rfl, rfl, by decide⟩

/-- C1 (amended): when the detected method "rebase" fails with HTTP 405, the
orchestrator does not abort: it proceeds to the fallback sequence, whose
first attempt repeats method "rebase"; "squash" is attempted next only after
that fallback rebase attempt also fails, and "merge" after that. -/
theorem mergePr_rebase_405_spec (rvs : List String) (rest : List MergeOutcome)
    (c : Nat) :
    mergePr ⟨false, rvs, some "rebase", .err 405 :: .ok :: rest⟩
        = (true, ["rebase", "rebase"])
    ∧ mergePr ⟨false, rvs, some "rebase", .err 405 :: .err c :: .ok :: rest⟩
        = (true, ["rebase", "rebase", "squash"])
    ∧ (∀ c2, (mergePr
        ⟨false, rvs, some "rebase", .err 405 :: .err c :: .err c2 :: rest⟩).2
          = ["rebase", "rebase", "squash", "merge"]) := by
  refine ⟨rfl, rfl, fun c2 => ?_⟩
  cases h : mergeAttempt rest |>.1 <;>
    simp [mergePr, mergePrFallback, mergeAttempt] at h ⊢ <;> simp [h]

/-- C9: with the review gate passing, a detected-method attempt failing with
anything but 404/405 aborts at once with no fallback attempt; a success on
the detected method needs no fallback; a 404/405 on the detected method, or
no detected method at all, runs the fallback sequence in the fixed order
rebase, squash, merge, where the first success ends the call with true and
three failures end it with false. -/
theorem mergePr_fallback_spec (rvs : List String) (m : String) (code : Nat)
    (rest : List MergeOutcome) :
    (code ≠ 404 → code ≠ 405 →
      mergePr ⟨false, rvs, some m, .err code :: rest⟩ = (false, [m]))
    ∧ mergePr ⟨false, rvs, some m, .ok :: rest⟩ = (true, [m])
    ∧ ((code = 404 ∨ code = 405) →
      mergePr ⟨false, rvs, some m, .err code :: rest⟩ = mergePrFallback rest [m])
    ∧ mergePr ⟨false, rvs, none, rest⟩ = mergePrFallback rest []
    ∧ (∀ acc, mergePrFallback (.ok :: rest) acc = (true, acc ++ ["rebase"]))
    ∧ (∀ acc c1, mergePrFallback (.err c1 :: .ok :: rest) acc
        = (true, acc ++ ["rebase", "squash"]))
    ∧ (∀ acc c1 c2, mergePrFallback (.err c1 :: .err c2 :: .ok :: rest) acc
        = (true, acc ++ ["rebase", "squash", "merge"]))
    ∧ (∀ acc c1 c2 c3, mergePrFallback (.err c1 :: .err c2 :: .err c3 :: rest) acc
        = (false, acc ++ ["rebase", "squash", "merge"])) := by
  refine ⟨?_, rfl, ?_, rfl, fun acc => rfl, fun acc c1 => rfl,
    fun acc c1 c2 => rfl, fun acc c1 c2 c3 => rfl⟩
  · intro h1 h2
    simp [mergePr, mergeAttempt, h1, h2]
  · intro h
    simp only [mergePr, mergeAttempt, Bool.false_and, Bool.false_eq_true,
      if_false, List.headD_cons, List.tail_cons, if_pos h]

/-- Witness for the C9 theorem: a detected "squash" attempt failing with 403
aborts with no fallback attempt, while failing with 405 and then succeeding
on the fallback rebase returns true with trace squash, rebase. -/
theorem mergePr_fallback_spec_witness :
    mergePr ⟨false, [], some "squash", [.err 403]⟩ = (false, ["squash"])
    ∧ mergePr ⟨false, [], some "squash", [.err 405, .ok]⟩
        = mergePrFallback [.ok] ["squash"] :=
  ⟨(mergePr_fallback_spec [] "squash" 403 []).1 (by decide) (by decide),
   (mergePr_fallback_spec [] "squash" 405 [.ok]).2.2.1 (Or.inr rfl)⟩

/-- C8: session initialization classifies failures exactly as claimed — a
falsy default branch yields the empty-repository error; a truthy canonical
name differing from the requested identifier yields renamed; an archived
repository yields archived; HTTP 403 yields access-forbidden and HTTP 404
not-found (when the message is not one of the three rethrown validation
messages); an access-blocked message (not hitting the 403/404 branches first)
yields blocked; the HTTP 451 message yields access-forbidden; and every other
failure propagates unchanged. -/
theorem initRepo_error_classification (repository : String) (repo : GhRepo)
    (e : GhErr) :
    (jsTruthy repo.defaultBranchRefName = false →
      initRepo repository (.ok (some repo)) = .error ⟨REPOSITORY_EMPTY, none⟩)
    ∧ (jsTruthy repo.defaultBranchRefName = true →
       jsTruthy repo.nameWithOwner = true →
       repo.nameWithOwner ≠ some repository →
      initRepo repository (.ok (some repo)) = .error ⟨REPOSITORY_RENAMED, none⟩)
    ∧ (jsTruthy repo.defaultBranchRefName = true →
       (jsTruthy repo.nameWithOwner = false ∨ repo.nameWithOwner = some repository) →
       repo.isArchived = true →
      initRepo repository (.ok (some repo)) = .error ⟨REPOSITORY_ARCHIVED, none⟩)
    ∧ (e.statusCode = some 403 →
       e.message ≠ REPOSITORY_ARCHIVED → e.message ≠ REPOSITORY_RENAMED →
       e.message ≠ REPOSITORY_NOT_FOUND →
      initRepo repository (.error e) = .error ⟨REPOSITORY_ACCESS_FORBIDDEN, none⟩)
    ∧ (e.statusCode = some 404 →
       e.message ≠ REPOSITORY_ARCHIVED → e.message ≠ REPOSITORY_RENAMED →
       e.message ≠ REPOSITORY_NOT_FOUND →
      initRepo repository (.error e) = .error ⟨REPOSITORY_NOT_FOUND, none⟩)
    ∧ (strStartsWith e.message "Repository access blocked" = true →
       e.statusCode ≠ some 403 → e.statusCode ≠ some 404 →
       e.message ≠ REPOSITORY_ARCHIVED → e.message ≠ REPOSITORY_RENAMED →
       e.message ≠ REPOSITORY_NOT_FOUND →
      initRepo repository (.error e) = .error ⟨REPOSITORY_BLOCKED, none⟩)
    ∧ (e.message = "Response code 451 (Unavailable for Legal Reasons)" →
       e.statusCode ≠ some 403 → e.statusCode ≠ some 404 →
      initRepo repository (.error e) = .error ⟨REPOSITORY_ACCESS_FORBIDDEN, none⟩)
    ∧ (e.message ≠ REPOSITORY_ARCHIVED → e.message ≠ REPOSITORY_RENAMED →
       e.message ≠ REPOSITORY_NOT_FOUND →
       e.statusCode ≠ some 403 → e.statusCode ≠ some 404 →
       strStartsWith e.message "Repository access blocked" = false →
       e.message ≠ "Response code 451 (Unavailable for Legal Reasons)" →
      initRepo repository (.error e) = .error e) := by
  obtain ⟨msg, code⟩ := e
  refine ⟨?_, ?_, ?_, ?_, ?_, ?_, ?_, ?_⟩
  · intro h
    simp [initRepo, initRepoInner, initRepoCatch, h, REPOSITORY_EMPTY,
      REPOSITORY_ARCHIVED, REPOSITORY_RENAMED, REPOSITORY_NOT_FOUND,
      REPOSITORY_FORKED, REPOSITORY_DISABLED, strStartsWith]
  · intro h1 h2 h3
    simp [initRepo, initRepoInner, initRepoCatch, h1, h2, h3,
      REPOSITORY_ARCHIVED, REPOSITORY_RENAMED, REPOSITORY_NOT_FOUND,
      REPOSITORY_FORKED, REPOSITORY_DISABLED, strStartsWith, bne_iff_ne]
  · intro h1 h2 h3
    have hren : (jsTruthy repo.nameWithOwner
        && repo.nameWithOwner != some repository) = false := by
      rcases h2 with h2 | h2 <;> simp [h2]
    simp [initRepo, initRepoInner, initRepoCatch, h1, hren, h3,
      REPOSITORY_ARCHIVED, REPOSITORY_RENAMED, REPOSITORY_NOT_FOUND,
      REPOSITORY_FORKED, REPOSITORY_DISABLED, strStartsWith]
  · intro h1 h2 h3 h4
    simp only at h1 h2 h3 h4
    subst h1
    simp [initRepo, initRepoCatch, h2, h3, h4]
  · intro h1 h2 h3 h4
    simp only at h1 h2 h3 h4
    subst h1
    simp [initRepo, initRepoCatch, h2, h3, h4]
  · intro h1 h2 h3 h4 h5 h6
    simp only at h1 h2 h3 h4 h5 h6
    simp [initRepo, initRepoCatch, h1, h2, h3, h4, h5, h6]
  · intro h1 h2 h3
    simp only at h1
    subst h1
    simp [initRepo, initRepoCatch, h2, h3, REPOSITORY_ARCHIVED,
      REPOSITORY_RENAMED, REPOSITORY_NOT_FOUND, REPOSITORY_FORKED,
      REPOSITORY_DISABLED, strStartsWith]
  · intro h1 h2 h3 h4 h5 h6 h7
    simp [initRepo, initRepoCatch, h1, h2, h3, h4, h5, h6, h7]

/-- Witness for the C8 theorem: a metadata result with no default branch is
classified as the empty-repository error, and a plain HTTP 403 failure as
access-forbidden. -/
theorem initRepo_error_classification_witness :
    initRepo "me/repo"
        (.ok (some ⟨some "me/repo", none, false, true, true, true, true, true, false⟩))
        = .error ⟨REPOSITORY_EMPTY, none⟩
    ∧ initRepo "me/repo" (.error ⟨"HTTPError", some 403⟩)
        = .error ⟨REPOSITORY_ACCESS_FORBIDDEN, none⟩ :=
  ⟨(initRepo_error_classification "me/repo"
      ⟨some "me/repo", none, false, true, true, true, true, true, false⟩
      ⟨"HTTPError", some 403⟩).1 rfl,
   (initRepo_error_classification "me/repo"
      ⟨some "me/repo", none, false, true, true, true, true, true, false⟩
      ⟨"HTTPError", some 403⟩).2.2.2.1 rfl (by decide) (by decide) (by decide)⟩

/-- Filtering the body-less projection of the store is filtering the store. -/
theorem filter_map_issueLite (store : List GhIssue) (p : IssueLite → Bool) :
    (store.map issueLite).filter p
      = (store.filter fun i => p (issueLite i)).map issueLite := by
  induction store with
  | nil => rfl
  | cons a l ih =>
    by_cases h : p (issueLite a) = true <;>
      simp [List.filter_cons, h, ih]

/-- Every member of a list of naturals is bounded by its max fold. -/
theorem mem_le_foldr_max {l : List Nat} {x : Nat} (hx : x ∈ l) :
    x ≤ l.foldr max 0 := by
  induction l with
  | nil => cases hx
  | cons a l ih =>
    rcases List.mem_cons.mp hx with rfl | hx
    · exact Nat.le_max_left _ _
    · exact le_trans (ih hx) (Nat.le_max_right _ _)

/-- With pairwise distinct issue numbers, searching the store for a member's
number finds exactly that member. -/
theorem find?_number_of_nodup {store : List GhIssue} {i : GhIssue}
    (hnd : (store.map GhIssue.number).Nodup) (hmem : i ∈ store) :
    store.find? (fun j => j.number == i.number) = some i := by
  induction store with
  | nil => cases hmem
  | cons a l ih =>
    rw [List.map_cons, List.nodup_cons] at hnd
    rcases List.mem_cons.mp hmem with rfl | hmem
    · rw [List.find?_cons_of_pos _ (by simp)]
    · have hna : (a.number == i.number) = false := by
        simp only [beq_eq_false_iff_ne, ne_eq]
        intro h
        exact hnd.1 (h ▸ List.mem_map_of_mem GhIssue.number hmem)
      rw [List.find?_cons_of_neg _ (by simp [hna])]
      exact ih hnd.2 hmem

/-- A number-preserving rewrite of the store commutes with searching by
number. -/
theorem find?_map_number (g : GhIssue → GhIssue)
    (hg : ∀ j, (g j).number = j.number) (store : List GhIssue) (n : Nat) :
    (store.map g).find? (fun j => j.number == n)
      = (store.find? (fun j => j.number == n)).map g := by
  induction store with
  | nil => rfl
  | cons a l ih =>
    by_cases h : a.number = n
    · rw [List.map_cons, List.find?_cons_of_pos _ (by simp [hg, h]),
        List.find?_cons_of_pos _ (by simp [h])]
      rfl
    · rw [List.map_cons, List.find?_cons_of_neg _ (by simp [hg, h]),
        List.find?_cons_of_neg _ (by simp [h]), ih]

/-- Populating the issue-list cache first does not change the call: a call on
a fresh cache equals the call on the populated cache. -/
theorem ensureIssue_fresh_eq_cached (cfg : EnsureIssueConfig)
    (store : List GhIssue) (w : Nat) :
    ensureIssue cfg ⟨store, none, true, w⟩
      = ensureIssue cfg ⟨store, some (store.map issueLite), true, w⟩ := rfl

/-- One `ensureIssue` call on a fresh cache with no title match creates. -/
theorem ensureIssue_creates (store : List GhIssue) (t b : String) (w : Nat)
    (hf : store.filter (fun i => i.title == t) = []) :
    ensureIssue { title := t, body := b } ⟨store, none, true, w⟩
      = (some "created",
         ⟨store ++ [⟨(store.map GhIssue.number).foldr max 0 + 1, t, "open", b⟩],
          none, true, w + 1⟩) := by
  have hfL : (store.map issueLite).filter (fun x => x.title == t) = [] := by
    rw [filter_map_issueLite]
    simp only [issueLite]
    rw [hf, List.map_nil]
  simp [ensureIssue, getIssueList, hfL, createIssue, sanitize]

/-- One `ensureIssue` call whose unique cached title match is open, exactly
titled and whose remote body already matches does nothing. -/
theorem ensureIssue_noop (storeR : List GhIssue) (L : List IssueLite)
    (li : IssueLite) (t b : String) (w : Nat)
    (hfL : L.filter (fun x => x.title == t) = [li])
    (hopen : li.state = "open") (htitle : li.title = t)
    (hbody : getIssueBody li.number ⟨storeR, some L, true, w⟩ = b) :
    ensureIssue { title := t, body := b } ⟨storeR, some L, true, w⟩
      = (none, ⟨storeR, some L, true, w⟩) := by
  have hfind : List.find? (fun i => i.state == "open") [li] = some li :=
    List.find?_cons_of_pos _ (by simp [hopen])
  simp [ensureIssue, getIssueList, sanitize, hfL, hfind, ensureIssueWith,
    hbody, htitle, hopen]

/-- One `ensureIssue` call whose unique cached title match is closed updates:
it PATCHes the issue open with the new body. -/
theorem ensureIssue_patches_closed (storeR : List GhIssue) (L : List IssueLite)
    (li : IssueLite) (t b : String) (w : Nat)
    (hfL : L.filter (fun x => x.title == t) = [li])
    (hclosed : li.state ≠ "open") :
    ensureIssue { title := t, body := b } ⟨storeR, some L, true, w⟩
      = (some "updated", patchIssue li.number t b ⟨storeR, some L, true, w⟩) := by
  have hfind : List.find? (fun i => i.state == "open") [li] = none := by
    rw [List.find?_cons_of_neg _ (by simp [hclosed]), List.find?_nil]
  have hst : (li.state == "open") = false := by simp [hclosed]
  simp [ensureIssue, getIssueList, sanitize, hfL, hfind, ensureIssueWith, hst]

/-- One `ensureIssue` call whose unique cached title match is open but whose
remote body is stale updates: it PATCHes the new body. -/
theorem ensureIssue_patches_stale (storeR : List GhIssue) (L : List IssueLite)
    (li : IssueLite) (t b : String) (w : Nat)
    (hfL : L.filter (fun x => x.title == t) = [li])
    (hopen : li.state = "open")
    (hbody : getIssueBody li.number ⟨storeR, some L, true, w⟩ ≠ b) :
    ensureIssue { title := t, body := b } ⟨storeR, some L, true, w⟩
      = (some "updated", patchIssue li.number t b ⟨storeR, some L, true, w⟩) := by
  have hfind : List.find? (fun i => i.state == "open") [li] = some li :=
    List.find?_cons_of_pos _ (by simp [hopen])
  have hb : (getIssueBody li.number ⟨storeR, some L, true, w⟩ == b) = false := by
    simp [hbody]
  simp [ensureIssue, getIssueList, sanitize, hfL, hfind, ensureIssueWith, hb]

/-- C4 counterexample: with one closed issue titled "T" holding a stale body,
two identical `ensureIssue` calls both PATCH: the first reopens the issue but
the issue-list cache is not invalidated on update, so the second call still
sees the cached closed state and issues a second update — two remote update
calls in total, not one. -/
theorem ensureIssue_reopen_double_update :
    (ensureIssue { title := "T", body := "B" }
        ⟨[⟨1, "T", "closed", "B0"⟩], none, true, 0⟩).1 = some "updated"
    ∧ (ensureIssue { title := "T", body := "B" }
        (ensureIssue { title := "T", body := "B" }
          ⟨[⟨1, "T", "closed", "B0"⟩], none, true, 0⟩).2).1 = some "updated"
    ∧ ((ensureIssue { title := "T", body := "B" }
        (ensureIssue { title := "T", body := "B" }
          ⟨[⟨1, "T", "closed", "B0"⟩], none, true, 0⟩).2).2).writes = 2 := by
  decide

/-- C4 (amended): two `ensureIssue` calls with identical title, body and
labels on a fresh session perform at most one remote create/update in total
when the first call creates (no title match) or when the unique title match
is already open — the second call then performs no write and returns null.
When the unique match is closed, however, the first call's update PATCH does
not invalidate the issue-list cache, so the second call still sees the stale
closed state and issues a second update PATCH: two update calls in total. -/
theorem ensureIssue_idempotence_spec (store : List GhIssue) (t b : String) :
    (store.filter (fun i => i.title == t) = [] →
      (ensureIssue { title := t, body := b } ⟨store, none, true, 0⟩).1
          = some "created"
      ∧ ((ensureIssue { title := t, body := b } ⟨store, none, true, 0⟩).2).writes = 1
      ∧ (ensureIssue { title := t, body := b }
          (ensureIssue { title := t, body := b } ⟨store, none, true, 0⟩).2).1 = none
      ∧ ((ensureIssue { title := t, body := b }
          (ensureIssue { title := t, body := b } ⟨store, none, true, 0⟩).2).2).writes
        = 1)
    ∧ (∀ i : GhIssue, store.filter (fun j => j.title == t) = [i] →
        (store.map GhIssue.number).Nodup → i.state = "open" →
      (ensureIssue { title := t, body := b }
          (ensureIssue { title := t, body := b } ⟨store, none, true, 0⟩).2).1 = none
      ∧ ((ensureIssue { title := t, body := b }
          (ensureIssue { title := t, body := b } ⟨store, none, true, 0⟩).2).2).writes
        = ((ensureIssue { title := t, body := b } ⟨store, none, true, 0⟩).2).writes)
    ∧ (∀ i : GhIssue, store.filter (fun j => j.title == t) = [i] → i.state ≠ "open" →
      (ensureIssue { title := t, body := b } ⟨store, none, true, 0⟩).1
          = some "updated"
      ∧ (ensureIssue { title := t, body := b }
          (ensureIssue { title := t, body := b } ⟨store, none, true, 0⟩).2).1
          = some "updated"
      ∧ ((ensureIssue { title := t, body := b }
          (ensureIssue { title := t, body := b } ⟨store, none, true, 0⟩).2).2).writes
        = 2) := by
  refine ⟨?_, ?_, ?_⟩
  · intro hf
    have h1 := ensureIssue_creates store t b 0 hf
    rw [h1]
    refine ⟨rfl, rfl, ?_, ?_⟩ <;>
    · have hf2 : ((store ++
          [GhIssue.mk ((store.map GhIssue.number).foldr max 0 + 1) t "open" b]).filter
            (fun i => i.title == t))
          = [GhIssue.mk ((store.map GhIssue.number).foldr max 0 + 1) t "open" b] := by
        rw [List.filter_append, hf]
        simp
      have hfL2 : (((store ++
          [GhIssue.mk ((store.map GhIssue.number).foldr max 0 + 1) t "open" b]).map
            issueLite).filter (fun x => x.title == t))
          = [issueLite
              (GhIssue.mk ((store.map GhIssue.number).foldr max 0 + 1) t "open" b)] := by
        rw [filter_map_issueLite]
        simp only [issueLite]
        rw [hf2]
        rfl
      have hnone : store.find? (fun j =>
          j.number == (store.map GhIssue.number).foldr max 0 + 1) = none := by
        rw [List.find?_eq_none]
        intro x hx
        have := mem_le_foldr_max (List.mem_map_of_mem GhIssue.number hx)
        simp only [beq_iff_eq]
        omega
      have hbody2 : getIssueBody
          (issueLite
            (GhIssue.mk ((store.map GhIssue.number).foldr max 0 + 1) t "open" b)).number
          ⟨store ++ [GhIssue.mk ((store.map GhIssue.number).foldr max 0 + 1) t "open" b],
            some ((store ++
              [GhIssue.mk ((store.map GhIssue.number).foldr max 0 + 1) t "open" b]).map
                issueLite), true, 1⟩ = b := by
        simp only [getIssueBody, issueLite, List.find?_append, hnone]
        rw [List.find?_cons_of_pos _ (by simp)]
        rfl
      have h2 := ensureIssue_noop _ _ _ t b 1 hfL2 rfl rfl hbody2
      rw [ensureIssue_fresh_eq_cached, h2]
  · intro i hf hnd hopen
    have hmem := List.mem_filter.mp (hf ▸ List.mem_singleton.mpr rfl)
    have htitle : i.title = t := by simpa using hmem.2
    have hfL : (store.map issueLite).filter (fun x => x.title == t)
        = [issueLite i] := by
      rw [filter_map_issueLite]
      simp only [issueLite]
      rw [hf]
      rfl
    have hfind := find?_number_of_nodup hnd hmem.1
    by_cases hb : i.body = b
    · have hbody : getIssueBody (issueLite i).number
          ⟨store, some (store.map issueLite), true, 0⟩ = b := by
        simp only [getIssueBody, issueLite]
        rw [hfind]
        simpa using hb
      have h1 := ensureIssue_noop store (store.map issueLite) (issueLite i) t b 0
        hfL hopen htitle hbody
      rw [ensureIssue_fresh_eq_cached, h1, h1]
      exact ⟨rfl, rfl⟩
    · have hbody : getIssueBody (issueLite i).number
          ⟨store, some (store.map issueLite), true, 0⟩ ≠ b := by
        simp only [getIssueBody, issueLite]
        rw [hfind]
        simpa using hb
      have h1 := ensureIssue_patches_stale store (store.map issueLite)
        (issueLite i) t b 0 hfL hopen hbody
      rw [ensureIssue_fresh_eq_cached, h1]
      have hbody2 : getIssueBody (issueLite i).number
          (patchIssue (issueLite i).number t b
            ⟨store, some (store.map issueLite), true, 0⟩) = b := by
        simp only [getIssueBody, issueLite, patchIssue]
        rw [find?_map_number _ (fun j => by by_cases hj : j.number = i.number <;>
          simp [hj]) store i.number, hfind]
        simp
      have h2 := ensureIssue_noop
        (patchIssue (issueLite i).number t b
          ⟨store, some (store.map issueLite), true, 0⟩).remoteIssues
        (store.map issueLite) (issueLite i) t b 1 hfL hopen htitle
        (by simpa [patchIssue] using hbody2)
      have hsess : patchIssue (issueLite i).number t b
          ⟨store, some (store.map issueLite), true, 0⟩
          = ⟨(patchIssue (issueLite i).number t b
              ⟨store, some (store.map issueLite), true, 0⟩).remoteIssues,
             some (store.map issueLite), true, 1⟩ := rfl
      rw [hsess, h2]
      exact ⟨rfl, rfl⟩
  · intro i hf hclosed
    have hmem := List.mem_filter.mp (hf ▸ List.mem_singleton.mpr rfl)
    have hfL : (store.map issueLite).filter (fun x => x.title == t)
        = [issueLite i] := by
      rw [filter_map_issueLite]
      simp only [issueLite]
      rw [hf]
      rfl
    have hli : (issueLite i).state ≠ "open" := hclosed
    have h1 := ensureIssue_patches_closed store (store.map issueLite)
      (issueLite i) t b 0 hfL hli
    rw [ensureIssue_fresh_eq_cached, h1]
    have hsess : patchIssue (issueLite i).number t b
        ⟨store, some (store.map issueLite), true, 0⟩
        = ⟨(patchIssue (issueLite i).number t b
            ⟨store, some (store.map issueLite), true, 0⟩).remoteIssues,
           some (store.map issueLite), true, 1⟩ := rfl
    have h2 := ensureIssue_patches_closed
      (patchIssue (issueLite i).number t b
        ⟨store, some (store.map issueLite), true, 0⟩).remoteIssues
      (store.map issueLite) (issueLite i) t b 1 hfL hli
    rw [hsess, h2]
    exact ⟨rfl, rfl, rfl⟩

/-- Witness for the C4 theorem: on a store with a single open issue titled
"T" with the stale body "B0" and distinct numbers, two identical calls leave
the second call writeless and returning null. -/
theorem ensureIssue_idempotence_spec_witness :
    (ensureIssue { title := "T", body := "B" }
        (ensureIssue { title := "T", body := "B" }
          ⟨[⟨1, "T", "open", "B0"⟩], none, true, 0⟩).2).1 = none
    ∧ ((ensureIssue { title := "T", body := "B" }
        (ensureIssue { title := "T", body := "B" }
          ⟨[⟨1, "T", "open", "B0"⟩], none, true, 0⟩).2).2).writes
      = ((ensureIssue { title := "T", body := "B" }
          ⟨[⟨1, "T", "open", "B0"⟩], none, true, 0⟩).2).writes :=
  (ensureIssue_idempotence_spec [⟨1, "T", "open", "B0"⟩] "T" "B").2.1
    ⟨1, "T", "open", "B0"⟩ (by decide) (by decide) rfl

/-- A string genuinely starts with each of its prefixes. -/
theorem strStartsWith_append (p s : String) : strStartsWith (p ++ s) p = true := by
  simp [strStartsWith, String.data_append]

/-- The content-only match fold of `ensureComment` keeps its accumulator when
no comment body equals the searched body. -/
theorem content_fold_id (comments : List Comment) (x : String)
    (acc : Option Nat × Bool) (h : ∀ c ∈ comments, c.body ≠ x) :
    comments.foldl (fun acc c => if c.body == x then (some c.id, false) else acc)
        acc = acc := by
  induction comments generalizing acc with
  | nil => rfl
  | cons c cs ih =>
    rw [List.foldl_cons, if_neg (by simp [h c (List.mem_cons_self c cs)])]
    exact ih acc (fun d hd => h d (List.mem_cons_of_mem c hd))

/-- When neither remote call fails, `ensureComment`'s final step reports
success whatever it decided to do. -/
theorem ensureCommentApply_true (found : Option Nat × Bool) (body : String)
    (env : CommentEnv) (hw : env.writeFails = false) :
    (ensureCommentApply found body env).1 = true := by
  rcases found with ⟨fid, fneed⟩
  cases fid <;> cases fneed <;> simp [ensureCommentApply, hw]

/-- C5: the two addressing modes of `ensureComment` behave as claimed and
never interact.  A topic-mode body strictly extends its content, so a
content-only call with content x never matches a topic-mode comment carrying
the same content — it creates a fresh comment instead, and content-only calls
never edit at all.  In topic mode an identical body is a no-op, a differing
body with the same header is edited in place, and a missing header leads to a
create.  The call returns true on create, update and already-up-to-date, and
false only when the comment fetch or the needed write fails. -/
theorem ensureComment_spec (t x b : String) (i : Nat) (env : CommentEnv) :
    ("### " ++ t ++ "\n\n" ++ x) ≠ x
    ∧ (∀ comments : List Comment, (∀ c ∈ comments, c.body ≠ sanitize x) →
        ensureComment none x ⟨comments, false, false⟩
          = (true, .added (sanitize x)))
    ∧ ensureComment none x ⟨[⟨i, "### " ++ t ++ "\n\n" ++ sanitize x⟩], false, false⟩
        = (true, .added (sanitize x))
    ∧ ensureComment (some t) x
        ⟨[⟨i, "### " ++ t ++ "\n\n" ++ sanitize x⟩], false, false⟩ = (true, .noop)
    ∧ (b ≠ sanitize x →
        ensureComment (some t) x ⟨[⟨i, "### " ++ t ++ "\n\n" ++ b⟩], false, false⟩
          = (true, .edited i ("### " ++ t ++ "\n\n" ++ sanitize x)))
    ∧ (strStartsWith b ("### " ++ t ++ "\n\n") = false →
        ensureComment (some t) x ⟨[⟨i, b⟩], false, false⟩
          = (true, .added ("### " ++ t ++ "\n\n" ++ sanitize x)))
    ∧ ensureComment none x ⟨[⟨i, sanitize x⟩], false, false⟩ = (true, .noop)
    ∧ (env.getCommentsFails = false → env.writeFails = false →
        (ensureComment (some t) x env).1 = true
        ∧ (ensureComment none x env).1 = true)
    ∧ ((ensureComment (some t) x env).1 = false →
        env.getCommentsFails = true ∨ env.writeFails = true)
    ∧ ((ensureComment none x env).1 = false →
        env.getCommentsFails = true ∨ env.writeFails = true) := by
  have hne : ("### " ++ t ++ "\n\n" ++ x) ≠ x := by
    intro h
    have hlen := congrArg String.length h
    rw [String.length_append, String.length_append, String.length_append] at hlen
    have h4 : "### ".length = 4 := rfl
    have h2 : "\n\n".length = 2 := rfl
    omega
  have hcreate : ∀ comments : List Comment, (∀ c ∈ comments, c.body ≠ sanitize x) →
      ensureComment none x ⟨comments, false, false⟩
        = (true, .added (sanitize x)) := by
    intro comments hc
    simp only [ensureComment, Bool.false_eq_true, if_false, sanitize]
    rw [content_fold_id comments x _ hc]
    rfl
  have htrue : ∀ topic env2, (env2 : CommentEnv).getCommentsFails = false →
      env2.writeFails = false → (ensureComment topic x env2).1 = true := by
    intro topic env2 hg hw
    cases topic <;>
      · simp only [ensureComment, hg, Bool.false_eq_true, if_false]
        exact ensureCommentApply_true _ _ _ hw
  refine ⟨hne, hcreate, ?_, ?_, ?_, ?_, ?_, ?_, ?_, ?_⟩
  · exact hcreate _ (by
      intro c hc
      rw [List.mem_singleton] at hc
      subst hc
      exact hne)
  · simp only [ensureComment, Bool.false_eq_true, if_false, List.foldl_cons,
      List.foldl_nil, sanitize]
    rw [if_pos (strStartsWith_append ("### " ++ t ++ "\n\n") x)]
    simp [ensureCommentApply]
  · intro hbx
    simp only [ensureComment, Bool.false_eq_true, if_false, List.foldl_cons,
      List.foldl_nil, sanitize]
    rw [if_pos (strStartsWith_append ("### " ++ t ++ "\n\n") b)]
    have hbne : (("### " ++ t ++ "\n\n" ++ b) != ("### " ++ t ++ "\n\n" ++ x)) = true := by
      simp only [bne_iff_ne, ne_eq]
      intro h
      rw [String.ext_iff, String.data_append, String.data_append] at h
      exact hbx (String.ext (List.append_cancel_left h))
    rw [hbne]
    rfl
  · intro hns
    simp only [ensureComment, Bool.false_eq_true, if_false, List.foldl_cons,
      List.foldl_nil, sanitize]
    rw [if_neg (by simp [hns])]
    rfl
  · simp only [ensureComment, Bool.false_eq_true, if_false, List.foldl_cons,
      List.foldl_nil, sanitize]
    rw [if_pos (by simp)]
    rfl
  · intro hg hw
    exact ⟨htrue (some t) env hg hw, htrue none env hg hw⟩
  · intro hfalse
    by_cases hg : env.getCommentsFails = true
    · exact Or.inl hg
    · refine Or.inr ?_
      by_cases hw : env.writeFails = true
      · exact hw
      · exact absurd (htrue (some t) env (by simpa using hg) (by simpa using hw))
          (by simp [hfalse])
  · intro hfalse
    by_cases hg : env.getCommentsFails = true
    · exact Or.inl hg
    · refine Or.inr ?_
      by_cases hw : env.writeFails = true
      · exact hw
      · exact absurd (htrue none env (by simpa using hg) (by simpa using hw))
          (by simp [hfalse])

/-- Witness for the C5 theorem: a content-only call with content "x" on a
list holding exactly the comment a topic-mode call with topic "t" and content
"x" would have created adds a fresh comment instead of matching it, and the
call reports success. -/
theorem ensureComment_spec_witness :
    ensureComment none "x" ⟨[⟨7, "### " ++ "t" ++ "\n\n" ++ sanitize "x"⟩], false, false⟩
        = (true, .added (sanitize "x"))
    ∧ ((ensureComment (some "t") "x"
        ⟨[⟨7, "### t\n\nx"⟩], false, false⟩).1 = true
      ∧ (ensureComment none "x"
        ⟨[⟨7, "### t\n\nx"⟩], false, false⟩).1 = true) :=
  ⟨(ensureComment_spec "t" "x" "" 7 ⟨[⟨7, "### t\n\nx"⟩], false, false⟩).2.2.1,
   (ensureComment_spec "t" "x" "" 7
      ⟨[⟨7, "### t\n\nx"⟩], false, false⟩).2.2.2.2.2.2.2.1 rfl rfl⟩

end Renovate
